import Mathlib

set_option maxRecDepth 100000

/-!
Verification development for the Twilio <-> OpenAI realtime voice bridge.

Part 1 embeds the lead-line parser of `src/server.js` (`parseLeadLine`):
strings are modelled as `List Char`, JavaScript's `String.prototype.trim`,
`split(/\r?\n/)` and the two regular expressions used by the parser are
embedded via a small backtracking matcher that mirrors the JS regex
semantics (leftmost match, greedy/lazy repetition with backtracking,
numbered capture groups).

Part 2 (below) embeds the per-call session-bridge event handlers of
`src/server.js`, the commit pacer of the `part_001` variant and the
cleanup logic of the `part_002` variant as explicit step functions on
per-call state, producing lists of observable effects.
-/

namespace Gateway

/-- JavaScript whitespace (`\s` and `trim`): space, tab, LF, CR, VT, FF,
NBSP, BOM, and the Unicode line separators. -/
def isJsWs (c : Char) : Bool :=
  c == ' ' || c == '\t' || c == '\n' || c == '\r' || c == '\x0b' || c == '\x0c' ||
  c == '\u00A0' || c == '\uFEFF' || c == '\u2028' || c == '\u2029'

/-- Drop trailing characters satisfying `p`. -/
def dropTrail (p : Char → Bool) (l : List Char) : List Char :=
  (l.reverse.dropWhile p).reverse

/-- JavaScript `String.prototype.trim`. -/
def jsTrim (l : List Char) : List Char :=
  dropTrail isJsWs (l.dropWhile isJsWs)

/-- JavaScript `str.split(/\r?\n/)`: split at each `\r\n` or bare `\n`
(a bare `\r` is not a separator). -/
def splitLines : List Char → List (List Char)
  | [] => [[]]
  | '\r' :: '\n' :: rest => [] :: splitLines rest
  | '\n' :: rest => [] :: splitLines rest
  | c :: rest =>
    match splitLines rest with
    | [] => [[c]]
    | l :: ls => (c :: l) :: ls

/-- Boolean list-prefix test on char lists (JS `startsWith`). -/
def listStarts : List Char → List Char → Bool
  | [], _ => true
  | _ :: _, [] => false
  | p :: ps, c :: cs => p == c && listStarts ps cs

/-! ### A small backtracking regex matcher

Tokens cover exactly the constructs appearing in the two regex literals of
`parseLeadLine`; every repetition body is a single character class, so the
matcher terminates structurally.  Greedy repetition prefers the longest
consumption and backtracks; lazy repetition prefers the shortest.  Captured
repetitions accumulate the consumed characters (in reverse) and append the
finished group to the capture list in pattern order, which matches the JS
group numbering here because no group is nested. -/

inductive Tok where
  /-- one character from a class (also case-insensitive literals) -/
  | lit (p : Char → Bool)
  /-- greedy uncaptured star, e.g. `\s*` -/
  | starG (p : Char → Bool)
  /-- lazy uncaptured star, e.g. `.*?` -/
  | starL (p : Char → Bool)
  /-- greedy captured star, e.g. `(.*)`; `acc` holds consumed chars reversed -/
  | capStarG (acc : List Char) (p : Char → Bool)
  /-- greedy captured plus, e.g. `([^;]+)` -/
  | capPlusG (p : Char → Bool)
  /-- captured exact repetition, e.g. `(\d{4})` -/
  | capExact (acc : List Char) (n : Nat) (p : Char → Bool)

/-- Backtracking matcher with an explicit recursion budget (structural on
the budget, so it evaluates inside the kernel): match the token list
against a prefix of the input (the pattern is not end-anchored), returning
the captures.  Every recursive call strictly decreases
`(s.length, toks.length)` lexicographically and never lengthens `toks`, so
a budget of `(s.length + 1) * (toks.length + 1)` is never exhausted and the
`0` branch is unreachable. -/
def reMatchFuel : Nat → List Tok → List Char → List (List Char) →
    Option (List (List Char))
  | 0, _, _, _ => none
  | _ + 1, [], _, caps => some caps
  | f + 1, .lit p :: rest, s, caps =>
    match s with
    | [] => none
    | c :: cs => if p c then reMatchFuel f rest cs caps else none
  | f + 1, .starG p :: rest, s, caps =>
    match s with
    | [] => reMatchFuel f rest [] caps
    | c :: cs =>
      if p c then
        reMatchFuel f (.starG p :: rest) cs caps <|> reMatchFuel f rest (c :: cs) caps
      else reMatchFuel f rest (c :: cs) caps
  | f + 1, .starL p :: rest, s, caps =>
    match s with
    | [] => reMatchFuel f rest [] caps
    | c :: cs =>
      reMatchFuel f rest (c :: cs) caps <|>
        (if p c then reMatchFuel f (.starL p :: rest) cs caps else none)
  | f + 1, .capStarG acc p :: rest, s, caps =>
    match s with
    | [] => reMatchFuel f rest [] (caps ++ [acc.reverse])
    | c :: cs =>
      if p c then
        reMatchFuel f (.capStarG (c :: acc) p :: rest) cs caps <|>
          reMatchFuel f rest (c :: cs) (caps ++ [acc.reverse])
      else reMatchFuel f rest (c :: cs) (caps ++ [acc.reverse])
  | f + 1, .capPlusG p :: rest, s, caps =>
    match s with
    | [] => none
    | c :: cs => if p c then reMatchFuel f (.capStarG [c] p :: rest) cs caps else none
  | f + 1, .capExact acc 0 _ :: rest, s, caps =>
    reMatchFuel f rest s (caps ++ [acc.reverse])
  | f + 1, .capExact acc (n + 1) p :: rest, s, caps =>
    match s with
    | [] => none
    | c :: cs => if p c then reMatchFuel f (.capExact (c :: acc) n p :: rest) cs caps else none

/-- Match the pattern at the start of `s` with a sufficient budget. -/
def reMatch (toks : List Tok) (s : List Char) (caps : List (List Char)) :
    Option (List (List Char)) :=
  reMatchFuel ((s.length + 1) * (toks.length + 1)) toks s caps

/-- Unanchored leftmost search (JS `String.prototype.match` without `/g`):
try each start position from the left, backtracking within a position. -/
def reSearch (toks : List Tok) (s : List Char) : Option (List (List Char)) :=
  match reMatch toks s [] with
  | some caps => some caps
  | none =>
    match s with
    | [] => none
    | _ :: cs => reSearch toks cs

/-! ### The two regex literals of `parseLeadLine` -/

/-- Class `\d` -/
def isDigitRe (c : Char) : Bool := c.isDigit

/-- Class `.` (anything but a line terminator) -/
def isDotRe (c : Char) : Bool :=
  !(c == '\n' || c == '\r' || c == '\u2028' || c == '\u2029')

/-- Class `[^;]` -/
def notSemi (c : Char) : Bool := c != ';'

/-- Class `[A-Za-z0-9-]` -/
def isMakeRe (c : Char) : Bool := c.isAlpha || c.isDigit || c == '-'

/-- a case-insensitive literal character (the `/i` flag) -/
def ciLit (c : Char) : Tok := .lit (fun x => x.toLower == c.toLower)

/-- a case-insensitive literal word -/
def ciWord (w : List Char) : List Tok := w.map ciLit

/-- Pattern `Key\s*=\s*([^;]+)` -/
def kvToks (key : List Char) : List Tok :=
  ciWord key ++ [.starG isJsWs, .lit (fun c => c == '='), .starG isJsWs, .capPlusG notSemi]

/-- The outer regex
`/Name\s*=\s*([^;]+).*?Phone\s*=\s*([^;]+).*?YMM\s*=\s*([^;]+).*?Service\s*=\s*([^;]+).*?ZIP\s*=\s*([^;]+)/i`. -/
def outerToks : List Tok :=
  kvToks "Name".data ++ [.starL isDotRe] ++
  kvToks "Phone".data ++ [.starL isDotRe] ++
  kvToks "YMM".data ++ [.starL isDotRe] ++
  kvToks "Service".data ++ [.starL isDotRe] ++
  kvToks "ZIP".data

/-- The inner vehicle-descriptor regex `/(\d{4})\s+([A-Za-z0-9-]+)\s+(.*)/`. -/
def ymToks : List Tok :=
  [.capExact [] 4 isDigitRe, .lit isJsWs, .starG isJsWs,
   .capPlusG isMakeRe, .lit isJsWs, .starG isJsWs, .capStarG [] isDotRe]

/-- The structured lead record returned by `parseLeadLine`. -/
structure Lead where
  name : List Char
  phone : List Char
  year : List Char
  make : List Char
  model : List Char
  service : List Char
  zip : List Char
  raw : List Char
deriving DecidableEq, Repr

/-- Function `parseLeadLine` from `src/server.js` lines 48-68: trim the input, run the
outer regex; on a match, trim the five groups and try to split the vehicle
descriptor with the inner regex, else leave the whole descriptor in `model`;
on no outer match every field other than `raw` stays empty. -/
def parseLeadLine (leadLine : List Char) : Lead :=
  let raw := jsTrim leadLine
  match reSearch outerToks raw with
  | some caps =>
    let name := jsTrim (caps.getD 0 [])
    let phone := jsTrim (caps.getD 1 [])
    let ymm := jsTrim (caps.getD 2 [])
    let service := jsTrim (caps.getD 3 [])
    let zip := jsTrim (caps.getD 4 [])
    match reSearch ymToks ymm with
    | some ycaps =>
      ⟨name, phone, jsTrim (ycaps.getD 0 []), jsTrim (ycaps.getD 1 []),
       jsTrim (ycaps.getD 2 []), service, zip, raw⟩
    | none => ⟨name, phone, [], [], ymm, service, zip, raw⟩
  | none => ⟨[], [], [], [], [], [], [], raw⟩



/-! ## Part 2: the per-call session bridge

Each accepted telephony connection runs the closure of
`wss.on('connection', ...)` in `src/server.js`.  We embed the per-call
mutable state (`streamSid`, `lastLeadLine`, the two sockets' ready states)
as a structure and the event handlers as a total step function from state
and event to new state plus a list of observable effects (messages sent on
either socket, the CSV hand-off, log output).  A raw inbound frame that
fails `JSON.parse` is a distinguished event; in `src/server.js` the Twilio
message handler performs the parse outside any try/catch, which we model by
entering an absorbing `crashed` state (the exception escapes the handler
and no further code of this call runs normally). -/

/-- WebSocket ready states (the `ws` library's `readyState`). -/
inductive WsSt where
  | connecting
  | wsOpen
  | closing
  | closed
deriving DecidableEq, Repr

/-- Control messages the bridge sends to the AI session. -/
inductive OaOut where
  | sessionUpdate
  | responseCreate
  | append (payload : List Char)
  | commit
deriving DecidableEq, Repr

/-- Parsed AI-session inbound messages, as dispatched by the handler in
`src/server.js` lines 247-256 (`malformed` stands for a frame on which
`JSON.parse` throws — caught there). -/
inductive OaMsg where
  | audioDelta (dat : Option (List Char))
  | textDelta (delta : List Char)
  | otherMsg
  | malformed
deriving DecidableEq, Repr

/-- Parsed telephony inbound messages (`msg.event` dispatch in
`src/server.js` lines 261-282; `malformed` stands for a frame on which
`JSON.parse` throws — not caught there). -/
inductive TwMsg where
  | start (sid : List Char)
  | media (payload : Option (List Char))
  | stop
  | otherMsg
  | malformed
deriving DecidableEq, Repr

/-- Events driving one call's session bridge. -/
inductive Ev where
  | oaOpen
  | oaMessage (m : OaMsg)
  | oaClose
  | twMessage (m : TwMsg)
  | twClose
deriving DecidableEq, Repr

/-- Observable effects of one handler invocation. -/
inductive Effect where
  /-- the one `new WebSocket(...)` to the AI service at connection accept -/
  | oaConnect
  | oaSend (m : OaOut)
  /-- a `media` envelope sent to the telephony socket -/
  | twSendMedia (sid : List Char) (payload : List Char)
  /-- `openaiWS.close()` -/
  | oaCloseCall
  /-- the CSV hand-off `appendLeadRow(parsed)` -/
  | persist (lead : Lead)
  /-- console logging inside a catch block -/
  | log
deriving DecidableEq, Repr

/-- Per-call mutable state of the `src/server.js` bridge closure. -/
structure SrvState where
  streamSid : Option (List Char)
  lastLeadLine : List Char
  oaReady : WsSt
  twReady : WsSt
  /-- an exception escaped a handler: no further code of this call runs -/
  crashed : Bool
deriving DecidableEq, Repr

/-- State at connection accept (`streamSid = null`, `lastLeadLine = ''`,
AI socket still connecting, telephony socket open). -/
def initState : SrvState :=
  ⟨none, [], .connecting, .wsOpen, false⟩

/-- Function `toTwilio` from `src/server.js` lines 226-229: drop the fragment unless
the call handle is known (and truthy) and the telephony socket is open. -/
def toTwilio (s : SrvState) (d : List Char) : List Effect :=
  match s.streamSid with
  | none => []
  | some sid =>
    if sid = [] then []
    else if s.twReady = .wsOpen then [.twSendMedia sid d] else []

/-- The marker test of `src/server.js` line 253:
`line.trim().toUpperCase().startsWith('LEAD:')`. -/
def isMarker (line : List Char) : Bool :=
  listStarts "LEAD:".data ((jsTrim line).map Char.toUpper)

/-- The `for (const line of lines)` loop of `src/server.js` line 253: each
marker line overwrites `lastLeadLine` with its trimmed text. -/
def scanLeadLines (cur : List Char) (lines : List (List Char)) : List Char :=
  lines.foldl (fun acc line => if isMarker line then jsTrim line else acc) cur

/-- The trimmed marker lines of one text delta, in order. -/
def markersOf (t : List Char) : List (List Char) :=
  (splitLines t).filterMap fun l => if isMarker l then some (jsTrim l) else none

/-- The step function of the `src/server.js` bridge: one inbound event,
handled as by the per-call event handlers (lines 226-291). -/
def srvStep (s : SrvState) (e : Ev) : SrvState × List Effect :=
  if s.crashed then (s, [])
  else
    match e with
    | .oaOpen => ({ s with oaReady := .wsOpen }, [.oaSend .sessionUpdate])
    | .oaMessage m =>
      match m with
      | .malformed => (s, [.log])
      | .audioDelta dat =>
        match dat with
        | some d => (s, toTwilio s d)
        | none => (s, [])
      | .textDelta t =>
        ({ s with lastLeadLine := scanLeadLines s.lastLeadLine (splitLines t) }, [])
      | .otherMsg => (s, [])
    | .oaClose => ({ s with oaReady := .closed }, [])
    | .twMessage m =>
      match m with
      | .malformed => ({ s with crashed := true }, [])
      | .start sid =>
        ({ s with streamSid := some sid },
         if s.oaReady = .wsOpen then [.oaSend .responseCreate] else [])
      | .media p =>
        match p with
        | some payload =>
          (s, if s.oaReady = .wsOpen then [.oaSend (.append payload)] else [])
        | none => (s, [])
      | .stop =>
        (s, if s.oaReady = .wsOpen then [.oaSend .commit, .oaSend .responseCreate] else [])
      | .otherMsg => (s, [])
    | .twClose =>
      let closeEffs : List Effect := if s.oaReady = .wsOpen then [.oaCloseCall] else []
      let lead := parseLeadLine (if s.lastLeadLine = [] then "LEAD:".data else s.lastLeadLine)
      ({ s with twReady := .closed,
                oaReady := if s.oaReady = .wsOpen then .closing else s.oaReady },
       closeEffs ++ [.persist lead])

/-- Run the handlers over a list of events, concatenating the effects. -/
def runFrom (s : SrvState) : List Ev → SrvState × List Effect
  | [] => (s, [])
  | e :: evs =>
    ((runFrom (srvStep s e).1 evs).1, (srvStep s e).2 ++ (runFrom (srvStep s e).1 evs).2)

/-- A whole call: the connection callback opens the AI socket exactly once,
then the event handlers run. -/
def runCall (evs : List Ev) : SrvState × List Effect :=
  let r := runFrom initState evs
  (r.1, Effect.oaConnect :: r.2)

/-- The trimmed marker lines an event contributes. -/
def evMarkers : Ev → List (List Char)
  | .oaMessage (.textDelta t) => markersOf t
  | _ => []

/-- All trimmed marker lines produced by the AI text stream over a trace. -/
def observedMarkers (evs : List Ev) : List (List Char) :=
  (evs.map evMarkers).flatten

/-- The records handed to the persistence collaborator among some effects. -/
def persistsOf (effs : List Effect) : List Lead :=
  effs.filterMap fun e => match e with | .persist l => some l | _ => none

def isTwClose : Ev → Bool
  | .twClose => true
  | _ => false

def isTwMalformed : Ev → Bool
  | .twMessage .malformed => true
  | _ => false

/-- No inbound telephony frame of the trace fails `JSON.parse`. -/
def errFree (evs : List Ev) : Bool := evs.all fun e => !isTwMalformed e

/-- The trace contains no telephony close event. -/
def noTwClose (evs : List Ev) : Bool := evs.all fun e => !isTwClose e

def isCloseEff : Effect → Bool
  | .oaCloseCall => true
  | _ => false

def isConnectEff : Effect → Bool
  | .oaConnect => true
  | _ => false

/-- Number of `openaiWS.close()` calls among some effects. -/
def countClose (effs : List Effect) : Nat := (effs.filter isCloseEff).length

/-- Number of AI-socket openings among some effects. -/
def countConnect (effs : List Effect) : Nat := (effs.filter isConnectEff).length

/-- Number of telephony close events in a trace. -/
def countTwClose (evs : List Ev) : Nat := (evs.filter isTwClose).length

/-- The last element of a list, or the default if it is empty. -/
def lastOr (d : List Char) : List (List Char) → List Char
  | [] => d
  | x :: xs => lastOr x xs


/-! ## The commit pacer of the `part_001` variant

`src/unnamed/part_001` adds a periodic commit timer: `startCommitTimer`
arms a `setInterval` whose callback sends `input_audio_buffer.commit` and
`response.create` only when the AI socket is open and
`receivedAudioSinceLastCommit` is set, then clears the flag.  Its Twilio
message handler parses inside try/catch (malformed frames are silently
discarded), sets the flag when an audio frame is appended, and on `stop`
sends a final commit + generate unconditionally (no flag check) and stops
the timer. -/

/-- Per-call state of the `part_001` bridge closure. -/
structure PacerState where
  streamSid : Option (List Char)
  oaReady : WsSt
  /-- `commitTimer` is armed (non-null interval handle) -/
  commitTimer : Bool
  receivedAudioSinceLastCommit : Bool
deriving DecidableEq, Repr

/-- State at connection accept for the `part_001` bridge. -/
def pacerInit : PacerState := ⟨none, .connecting, false, false⟩

/-- Events driving the `part_001` bridge: socket lifecycle, parsed Twilio
messages (with `twMalformed` for an unparsable frame) and the interval
callback `timerTick`. -/
inductive PEv where
  | oaOpen
  | oaClose
  | timerTick
  | twStart (sid : List Char)
  | twMedia (payload : Option (List Char))
  | twStop
  | twMalformed
  | twClose
deriving DecidableEq, Repr

/-- Observable effects of the `part_001` bridge. -/
inductive PEffect where
  | oaSend (m : OaOut)
  | oaCloseCall
deriving DecidableEq, Repr

/-- The step function of the `part_001` bridge (`startCommitTimer` lines
54-68, handlers lines 70-169). -/
def pacerStep (s : PacerState) (e : PEv) : PacerState × List PEffect :=
  match e with
  | .oaOpen => ({ s with oaReady := .wsOpen }, [.oaSend .sessionUpdate])
  | .oaClose => ({ s with oaReady := .closed, commitTimer := false }, [])
  | .timerTick =>
    if s.commitTimer ∧ s.oaReady = .wsOpen ∧ s.receivedAudioSinceLastCommit then
      ({ s with receivedAudioSinceLastCommit := false },
       [.oaSend .commit, .oaSend .responseCreate])
    else (s, [])
  | .twStart sid =>
    ({ s with streamSid := some sid, commitTimer := true },
     if s.oaReady = .wsOpen then [.oaSend .responseCreate] else [])
  | .twMedia p =>
    match p with
    | some payload =>
      if s.oaReady = .wsOpen then
        ({ s with receivedAudioSinceLastCommit := true }, [.oaSend (.append payload)])
      else (s, [])
    | none => (s, [])
  | .twStop =>
    ({ s with commitTimer := false },
     if s.oaReady = .wsOpen then [.oaSend .commit, .oaSend .responseCreate] else [])
  | .twMalformed => (s, [])
  | .twClose =>
    ({ s with commitTimer := false,
              oaReady := if s.oaReady = .wsOpen then .closing else s.oaReady },
     if s.oaReady = .wsOpen then [.oaCloseCall] else [])

/-- Run the `part_001` handlers over a trace. -/
def runPacer (s : PacerState) : List PEv → PacerState × List PEffect
  | [] => (s, [])
  | e :: evs =>
    ((runPacer (pacerStep s e).1 evs).1, (pacerStep s e).2 ++ (runPacer (pacerStep s e).1 evs).2)

/-! ## The cleanup path of the `part_002` variant

`src/unnamed/part_002` guards its whole Twilio message handler with
try/catch (a malformed frame is logged and discarded) and funnels every
termination path through `cleanup()`, which is made idempotent by a
`closed` flag and closes whichever sockets are still open inside
try/catch. -/

/-- Per-call state of the `part_002` bridge closure. -/
structure DbgState where
  streamSid : Option (List Char)
  frames : Nat
  oaReady : WsSt
  twReady : WsSt
  /-- `closed` flag making `cleanup` idempotent -/
  closed : Bool
  /-- the keepalive `pingInterval` is armed -/
  pingTimer : Bool
deriving DecidableEq, Repr

/-- State at connection accept for the `part_002` bridge. -/
def dbgInit : DbgState := ⟨none, 0, .connecting, .wsOpen, false, true⟩

/-- Observable effects of the `part_002` bridge. -/
inductive DbgEffect where
  | oaSend (m : OaOut)
  | oaCloseCall
  | twCloseCall
  | log
deriving DecidableEq, Repr

/-- Function `cleanup` from `src/unnamed/part_002` lines 94-101: a no-op when
already performed, else clear the keepalive timer and close each socket
that is still open (each inside try/catch, so nothing raises). -/
def cleanup (s : DbgState) : DbgState × List DbgEffect :=
  if s.closed then (s, [])
  else
    ({ s with closed := true, pingTimer := false,
              oaReady := if s.oaReady = .wsOpen then .closing else s.oaReady,
              twReady := if s.twReady = .wsOpen then .closing else s.twReady },
     (if s.oaReady = .wsOpen then [DbgEffect.oaCloseCall] else []) ++
       (if s.twReady = .wsOpen then [DbgEffect.twCloseCall] else []) ++ [.log])

/-- The Twilio message handler of `src/unnamed/part_002` lines 149-182:
everything runs inside try/catch, so a frame that fails `JSON.parse` is
logged and discarded and the call continues. -/
def dbgTwStep (s : DbgState) (m : TwMsg) : DbgState × List DbgEffect :=
  match m with
  | .malformed => (s, [.log])
  | .start sid =>
    ({ s with streamSid := some sid },
     if s.oaReady = .wsOpen then [.oaSend .responseCreate] else [])
  | .media p =>
    match p with
    | some payload =>
      ({ s with frames := s.frames + 1 },
       if s.oaReady = .wsOpen then [.oaSend (.append payload)] else [])
    | none => (s, [])
  | .stop =>
    (s, if s.oaReady = .wsOpen then [.oaSend .commit, .oaSend .responseCreate] else [])
  | .otherMsg => (s, [])


/-! ## Helper lemmas -/

lemma lastOr_append (d : List Char) (xs ys : List (List Char)) :
    lastOr d (xs ++ ys) = lastOr (lastOr d xs) ys := by
  induction xs generalizing d with
  | nil => rfl
  | cons x xs ih => simp [lastOr, ih]

lemma scanLeadLines_eq (cur : List Char) (lines : List (List Char)) :
    scanLeadLines cur lines =
      lastOr cur (lines.filterMap fun l => if isMarker l then some (jsTrim l) else none) := by
  induction lines generalizing cur with
  | nil => rfl
  | cons l ls ih =>
    show scanLeadLines (if isMarker l then jsTrim l else cur) ls = _
    rw [ih]
    by_cases hm : isMarker l <;> simp [hm, List.filterMap_cons, lastOr]

lemma isMarker_trim_ne_nil {a : List Char} (h : isMarker a = true) : jsTrim a ≠ [] := by
  intro hnil
  rw [isMarker, hnil] at h
  simp only [List.map_nil] at h
  exact absurd h (by decide)

lemma markersOf_ne_nil {t l : List Char} (h : l ∈ markersOf t) : l ≠ [] := by
  simp only [markersOf, List.mem_filterMap] at h
  obtain ⟨a, _, ha⟩ := h
  by_cases hm : isMarker a
  · rw [if_pos hm] at ha
    cases ha
    exact isMarker_trim_ne_nil hm
  · rw [if_neg hm] at ha
    cases ha

lemma observedMarkers_ne_nil {evs : List Ev} {l : List Char}
    (h : l ∈ observedMarkers evs) : l ≠ [] := by
  simp only [observedMarkers, List.mem_flatten, List.mem_map] at h
  obtain ⟨_, ⟨e, _, rfl⟩, hl⟩ := h
  cases e with
  | oaMessage m =>
    cases m with
    | textDelta t => exact markersOf_ne_nil hl
    | audioDelta d => simp [evMarkers] at hl
    | otherMsg => simp [evMarkers] at hl
    | malformed => simp [evMarkers] at hl
  | oaOpen => simp [evMarkers] at hl
  | oaClose => simp [evMarkers] at hl
  | twMessage m => simp [evMarkers] at hl
  | twClose => simp [evMarkers] at hl

lemma srvStep_track (s : SrvState) (e : Ev) (hc : s.crashed = false) :
    (srvStep s e).1.lastLeadLine = lastOr s.lastLeadLine (evMarkers e) ∧
      (srvStep s e).1.crashed = isTwMalformed e := by
  cases e with
  | oaOpen => simp [srvStep, hc, evMarkers, lastOr, isTwMalformed]
  | oaClose => simp [srvStep, hc, evMarkers, lastOr, isTwMalformed]
  | twClose => simp [srvStep, hc, evMarkers, lastOr, isTwMalformed]
  | oaMessage m =>
    cases m with
    | audioDelta dat =>
      cases dat <;> simp [srvStep, hc, evMarkers, lastOr, isTwMalformed]
    | textDelta t =>
      simp [srvStep, hc, evMarkers, lastOr, isTwMalformed, scanLeadLines_eq, markersOf]
    | otherMsg => simp [srvStep, hc, evMarkers, lastOr, isTwMalformed]
    | malformed => simp [srvStep, hc, evMarkers, lastOr, isTwMalformed]
  | twMessage m =>
    cases m with
    | start sid => simp [srvStep, hc, evMarkers, lastOr, isTwMalformed]
    | media p => cases p <;> simp [srvStep, hc, evMarkers, lastOr, isTwMalformed]
    | stop => simp [srvStep, hc, evMarkers, lastOr, isTwMalformed]
    | otherMsg => simp [srvStep, hc, evMarkers, lastOr, isTwMalformed]
    | malformed => simp [srvStep, hc, evMarkers, lastOr, isTwMalformed]

lemma runFrom_track (evs : List Ev) : ∀ s : SrvState, s.crashed = false →
    errFree evs = true →
    (runFrom s evs).1.crashed = false ∧
      (runFrom s evs).1.lastLeadLine = lastOr s.lastLeadLine (observedMarkers evs) := by
  induction evs with
  | nil => intro s hc _; exact ⟨hc, rfl⟩
  | cons e evs ih =>
    intro s hc he
    simp only [errFree, List.all_cons, Bool.and_eq_true, Bool.not_eq_true'] at he
    obtain ⟨h1, h2⟩ := srvStep_track s e hc
    have hcrash : (srvStep s e).1.crashed = false := by rw [h2]; exact he.1
    have he' : errFree evs = true := by simpa [errFree] using he.2
    obtain ⟨ih1, ih2⟩ := ih (srvStep s e).1 hcrash he'
    refine ⟨ih1, ?_⟩
    show (runFrom (srvStep s e).1 evs).1.lastLeadLine = _
    rw [ih2, h1, ← lastOr_append]
    rfl

lemma persistsOf_append (a b : List Effect) :
    persistsOf (a ++ b) = persistsOf a ++ persistsOf b := by
  simp [persistsOf]


lemma toTwilio_persistsOf (s : SrvState) (d : List Char) :
    persistsOf (toTwilio s d) = [] := by
  rw [toTwilio]
  cases s.streamSid with
  | none => rfl
  | some sid =>
    by_cases hs : sid = []
    · simp [hs, persistsOf]
    · by_cases ht : s.twReady = WsSt.wsOpen <;> simp [hs, ht, persistsOf]

lemma toTwilio_countClose (s : SrvState) (d : List Char) :
    countClose (toTwilio s d) = 0 := by
  rw [toTwilio]
  cases s.streamSid with
  | none => rfl
  | some sid =>
    by_cases hs : sid = []
    · simp [hs, countClose]
    · by_cases ht : s.twReady = WsSt.wsOpen <;> simp [hs, ht, countClose, isCloseEff]

lemma toTwilio_countConnect (s : SrvState) (d : List Char) :
    countConnect (toTwilio s d) = 0 := by
  rw [toTwilio]
  cases s.streamSid with
  | none => rfl
  | some sid =>
    by_cases hs : sid = []
    · simp [hs, countConnect]
    · by_cases ht : s.twReady = WsSt.wsOpen <;> simp [hs, ht, countConnect, isConnectEff]

lemma srvStep_persistsOf (s : SrvState) (e : Ev) (hne : isTwClose e = false) :
    persistsOf (srvStep s e).2 = [] := by
  obtain ⟨sid0, lll, oa, tw, cr⟩ := s
  cases cr
  · cases e with
    | oaOpen => rfl
    | oaClose => rfl
    | twClose => simp [isTwClose] at hne
    | oaMessage m =>
      cases m with
      | audioDelta dat =>
        cases dat with
        | none => rfl
        | some d => exact toTwilio_persistsOf ⟨sid0, lll, oa, tw, false⟩ d
      | textDelta t => rfl
      | otherMsg => rfl
      | malformed => rfl
    | twMessage m =>
      cases m with
      | start sid => simp only [srvStep]; split_ifs <;> rfl
      | media p =>
        cases p with
        | none => rfl
        | some d => simp only [srvStep]; split_ifs <;> rfl
      | stop => simp only [srvStep]; split_ifs <;> rfl
      | otherMsg => rfl
      | malformed => rfl
  · rfl

lemma srvStep_twClose_persistsOf (s : SrvState) (hc : s.crashed = false) :
    persistsOf (srvStep s .twClose).2 =
      [parseLeadLine (if s.lastLeadLine = [] then "LEAD:".data else s.lastLeadLine)] := by
  obtain ⟨sid0, lll, oa, tw, cr⟩ := s
  cases hc
  simp only [srvStep]
  split_ifs <;> simp_all [persistsOf]

lemma runFrom_persistsOf (evs : List Ev) : ∀ s, noTwClose evs = true →
    persistsOf (runFrom s evs).2 = [] := by
  induction evs with
  | nil => intro s _; rfl
  | cons e evs ih =>
    intro s hn
    simp only [noTwClose, List.all_cons, Bool.and_eq_true, Bool.not_eq_true'] at hn
    show persistsOf ((srvStep s e).2 ++ (runFrom (srvStep s e).1 evs).2) = []
    rw [persistsOf_append, srvStep_persistsOf s e hn.1,
      ih (srvStep s e).1 (by simpa [noTwClose] using hn.2)]
    rfl

lemma countClose_append (a b : List Effect) :
    countClose (a ++ b) = countClose a + countClose b := by
  simp [countClose, List.filter_append]

lemma countConnect_append (a b : List Effect) :
    countConnect (a ++ b) = countConnect a + countConnect b := by
  simp [countConnect, List.filter_append]

lemma srvStep_countClose_eq_zero (s : SrvState) (e : Ev) (hne : isTwClose e = false) :
    countClose (srvStep s e).2 = 0 := by
  obtain ⟨sid0, lll, oa, tw, cr⟩ := s
  cases cr
  · cases e with
    | oaOpen => rfl
    | oaClose => rfl
    | twClose => simp [isTwClose] at hne
    | oaMessage m =>
      cases m with
      | audioDelta dat =>
        cases dat with
        | none => rfl
        | some d => exact toTwilio_countClose ⟨sid0, lll, oa, tw, false⟩ d
      | textDelta t => rfl
      | otherMsg => rfl
      | malformed => rfl
    | twMessage m =>
      cases m with
      | start sid => simp only [srvStep]; split_ifs <;> rfl
      | media p =>
        cases p with
        | none => rfl
        | some d => simp only [srvStep]; split_ifs <;> rfl
      | stop => simp only [srvStep]; split_ifs <;> rfl
      | otherMsg => rfl
      | malformed => rfl
  · rfl

lemma srvStep_twClose_countClose_le (s : SrvState) :
    countClose (srvStep s .twClose).2 ≤ 1 := by
  obtain ⟨sid0, lll, oa, tw, cr⟩ := s
  cases cr
  · simp only [srvStep]
    split_ifs <;> simp [countClose, isCloseEff]
  · simp [srvStep, countClose]

lemma srvStep_countConnect (s : SrvState) (e : Ev) :
    countConnect (srvStep s e).2 = 0 := by
  obtain ⟨sid0, lll, oa, tw, cr⟩ := s
  cases cr
  · cases e with
    | oaOpen => rfl
    | oaClose => rfl
    | twClose => simp only [srvStep]; split_ifs <;> rfl
    | oaMessage m =>
      cases m with
      | audioDelta dat =>
        cases dat with
        | none => rfl
        | some d => exact toTwilio_countConnect ⟨sid0, lll, oa, tw, false⟩ d
      | textDelta t => rfl
      | otherMsg => rfl
      | malformed => rfl
    | twMessage m =>
      cases m with
      | start sid => simp only [srvStep]; split_ifs <;> rfl
      | media p =>
        cases p with
        | none => rfl
        | some d => simp only [srvStep]; split_ifs <;> rfl
      | stop => simp only [srvStep]; split_ifs <;> rfl
      | otherMsg => rfl
      | malformed => rfl
  · rfl

lemma countTwClose_cons (e : Ev) (evs : List Ev) :
    countTwClose (e :: evs) = (if isTwClose e then 1 else 0) + countTwClose evs := by
  simp only [countTwClose, List.filter_cons]
  split_ifs <;> simp [countTwClose, Nat.add_comm]

lemma runFrom_countClose (evs : List Ev) : ∀ s,
    countClose (runFrom s evs).2 ≤ countTwClose evs := by
  induction evs with
  | nil => intro s; simp [runFrom, countClose, countTwClose]
  | cons e evs ih =>
    intro s
    show countClose ((srvStep s e).2 ++ (runFrom (srvStep s e).1 evs).2) ≤ _
    rw [countClose_append, countTwClose_cons]
    by_cases he : isTwClose e
    · have hte : e = .twClose := by cases e <;> simp_all [isTwClose]
      subst hte
      rw [if_pos he]
      exact Nat.add_le_add (srvStep_twClose_countClose_le s) (ih (srvStep s .twClose).1)
    · rw [if_neg he, srvStep_countClose_eq_zero s e (by simpa using he)]
      simpa using ih (srvStep s e).1

lemma runFrom_countConnect (evs : List Ev) : ∀ s,
    countConnect (runFrom s evs).2 = 0 := by
  induction evs with
  | nil => intro s; simp [runFrom, countConnect]
  | cons e evs ih =>
    intro s
    show countConnect ((srvStep s e).2 ++ (runFrom (srvStep s e).1 evs).2) = 0
    rw [countConnect_append, srvStep_countConnect, ih (srvStep s e).1]


lemma runFrom_append (s : SrvState) (evs1 evs2 : List Ev) :
    runFrom s (evs1 ++ evs2) =
      ((runFrom (runFrom s evs1).1 evs2).1,
        (runFrom s evs1).2 ++ (runFrom (runFrom s evs1).1 evs2).2) := by
  induction evs1 generalizing s with
  | nil => simp [runFrom]
  | cons e evs ih => simp [runFrom, ih, List.append_assoc]

/-! ## The claims -/

/-- Claim C1: parsing the sample marker line
`LEAD: Name=Jane Doe; Phone=605-555-1212; YMM=2019 Toyota Camry; Service=Lockout; ZIP=57106`
yields name `Jane Doe`, phone `605-555-1212`, year `2019`, make `Toyota`,
model `Camry`, service `Lockout` and zip `57106`. -/
theorem c1_parse_sample_lead_line :
    parseLeadLine "LEAD: Name=Jane Doe; Phone=605-555-1212; YMM=2019 Toyota Camry; Service=Lockout; ZIP=57106".data =
      ⟨"Jane Doe".data, "605-555-1212".data, "2019".data, "Toyota".data, "Camry".data,
        "Lockout".data, "57106".data,
        "LEAD: Name=Jane Doe; Phone=605-555-1212; YMM=2019 Toyota Camry; Service=Lockout; ZIP=57106".data⟩ := by
  decide

/-- Modelled from the spec: the hypothesis of claim C2 — the vehicle
descriptor BEGINS with a 4-digit year, followed by whitespace, a make token
and whitespace (the inner regex anchored at the start of the descriptor).
The code itself runs that regex unanchored; this definition exists to state
the claim as written and compare it with the code. -/
def ymmBeginsWithYearMake (ymm : List Char) : Bool :=
  (reMatch ymToks ymm []).isSome

/-- The lead line refuting claim C2: its YMM segment
`zz 2019 Toyota Camry` does not begin with a 4-digit year, yet the
unanchored descriptor regex matches mid-string. -/
def c2cexLine : List Char :=
  "LEAD: Name=A; Phone=1; YMM=zz 2019 Toyota Camry; Service=Lockout; ZIP=57106".data

/-- Claim C2 is false as stated: on `c2cexLine` the captured YMM segment is
`zz 2019 Toyota Camry`, which does not begin with a 4-digit year followed by
a make token, yet the parser returns year `2019` and make `Toyota` (not
year = make = "" with the whole descriptor as model), because the inner
regex is unanchored and matches at position 3. -/
theorem c2_counterexample :
    ((reSearch outerToks (jsTrim c2cexLine)).map fun caps => jsTrim (caps.getD 2 [])) =
        some "zz 2019 Toyota Camry".data ∧
      ymmBeginsWithYearMake "zz 2019 Toyota Camry".data = false ∧
      (parseLeadLine c2cexLine).year = "2019".data ∧
      (parseLeadLine c2cexLine).make = "Toyota".data ∧
      (parseLeadLine c2cexLine).model = "Camry".data := by
  exact ⟨by decide, by decide, by decide, by decide, by decide⟩

/-- Claim C2 (amended): the year/make/model fallback applies exactly when
the descriptor regex finds no match at ANY position of the YMM segment (it
is unanchored, not anchored to the start): in that case the parser returns
year = "" and make = "" and stores the whole trimmed descriptor as the
model field. -/
theorem c2_amended_ym_fallback (line : List Char) (caps : List (List Char))
    (h1 : reSearch outerToks (jsTrim line) = some caps)
    (h2 : reSearch ymToks (jsTrim (caps.getD 2 [])) = none) :
    (parseLeadLine line).year = [] ∧ (parseLeadLine line).make = [] ∧
      (parseLeadLine line).model = jsTrim (caps.getD 2 []) := by
  simp only [parseLeadLine, h1, h2]
  exact ⟨trivial, trivial, trivial⟩

/-- The well-formed lead line with a year-free descriptor used as the
witness input for claim C2. -/
def c2okLine : List Char :=
  "LEAD: Name=A; Phone=1; YMM=Not A Year Model; Service=Lockout; ZIP=57106".data

/-- Claim C2 witness: the amended fallback at `c2okLine`. -/
theorem c2_amended_ym_fallback_witness :
    reSearch outerToks (jsTrim c2okLine) =
        some ["A".data, "1".data, "Not A Year Model".data, "Lockout".data, "57106".data] ∧
      reSearch ymToks (jsTrim "Not A Year Model".data) = none ∧
      (parseLeadLine c2okLine).model = "Not A Year Model".data := by
  refine ⟨by decide, by decide, ?_⟩
  have h := (c2_amended_ym_fallback c2okLine
      ["A".data, "1".data, "Not A Year Model".data, "Lockout".data, "57106".data]
      (by decide) (by decide)).2.2
  have he : jsTrim ((["A".data, "1".data, "Not A Year Model".data, "Lockout".data,
      "57106".data]).getD 2 []) = "Not A Year Model".data := by decide
  rw [he] at h
  exact h

/-- Claim C3: when the AI text stream produces exactly two marker lines, L1
then L2, the record persisted at call end is the parse of L2 — the last
matching line overwrites the first; earlier matches are never accumulated. -/
theorem c3_last_marker_persisted (evs : List Ev) (L1 L2 : List Char)
    (he : errFree evs = true) (hn : noTwClose evs = true)
    (hm : observedMarkers evs = [L1, L2]) :
    persistsOf (runFrom initState (evs ++ [.twClose])).2 = [parseLeadLine L2] := by
  obtain ⟨hcr, hlast⟩ := runFrom_track evs initState rfl he
  rw [hm] at hlast
  simp only [lastOr] at hlast
  have hL2 : L2 ≠ [] := observedMarkers_ne_nil (by rw [hm]; simp)
  rw [runFrom_append, persistsOf_append, runFrom_persistsOf evs initState hn]
  simp only [runFrom, List.append_nil, List.nil_append]
  rw [srvStep_twClose_persistsOf _ hcr, hlast, if_neg hL2]

/-- The two-marker text delta used as the witness input for claim C3. -/
def c3delta : List Char := "LEAD: A\nLEAD: B".data

/-- Claim C3 witness: a single delta carrying marker lines `LEAD: A` then
`LEAD: B`; the persisted record is the parse of `LEAD: B`. -/
theorem c3_last_marker_persisted_witness :
    errFree [Ev.oaMessage (.textDelta c3delta)] = true ∧
      noTwClose [Ev.oaMessage (.textDelta c3delta)] = true ∧
      observedMarkers [Ev.oaMessage (.textDelta c3delta)] =
        ["LEAD: A".data, "LEAD: B".data] ∧
      persistsOf (runFrom initState ([Ev.oaMessage (.textDelta c3delta)] ++ [.twClose])).2 =
        [parseLeadLine "LEAD: B".data] :=
  ⟨by decide, by decide, by decide,
    c3_last_marker_persisted _ "LEAD: A".data "LEAD: B".data
      (by decide) (by decide) (by decide)⟩

/-- Claim C4: an AI output-audio fragment is forwarded to the telephony
side only when the call handle is already known (a truthy `streamSid`) and
the telephony socket is open; with no handle the fragment produces no
effect and no state change — dropped, never queued. -/
theorem c4_audio_forward_guard (s : SrvState) (d : List Char) (hc : s.crashed = false) :
    (s.streamSid = none → srvStep s (.oaMessage (.audioDelta (some d))) = (s, [])) ∧
      (∀ sid, s.streamSid = some sid → sid ≠ [] → s.twReady = WsSt.wsOpen →
        srvStep s (.oaMessage (.audioDelta (some d))) = (s, [.twSendMedia sid d])) ∧
      (s.twReady ≠ WsSt.wsOpen → srvStep s (.oaMessage (.audioDelta (some d))) = (s, [])) := by
  obtain ⟨sid0, lll, oa, tw, cr⟩ := s
  cases hc
  refine ⟨?_, ?_, ?_⟩
  · intro h
    replace h : sid0 = none := h
    subst h
    rfl
  · intro sid h hne hop
    replace h : sid0 = some sid := h
    subst h
    replace hop : tw = WsSt.wsOpen := hop
    subst hop
    simp [srvStep, toTwilio, hne]
  · intro h
    replace h : ¬tw = WsSt.wsOpen := h
    cases sid0 with
    | none => rfl
    | some sid =>
      simp only [srvStep, toTwilio]
      split_ifs <;> simp_all

/-- Claim C4 witness: at the initial state (no call handle yet) an audio
fragment is dropped with no state change. -/
theorem c4_audio_forward_guard_witness :
    initState.crashed = false ∧ initState.streamSid = none ∧
      srvStep initState (.oaMessage (.audioDelta (some "Zm9v".data))) = (initState, []) :=
  ⟨rfl, rfl, (c4_audio_forward_guard initState "Zm9v".data rfl).1 rfl⟩

/-- Claim C5 is false as stated: in the `part_001` pacer, after
`oaOpen, twStart` and no audio, `receivedAudioSinceLastCommit` is false,
yet the `stop` handler emits an unconditional commit; the `src/server.js`
stop handler likewise commits unconditionally on a call with no media. -/
theorem c5_counterexample :
    (runPacer pacerInit [.oaOpen, .twStart "MZ1".data]).1.receivedAudioSinceLastCommit = false ∧
      (pacerStep (runPacer pacerInit [.oaOpen, .twStart "MZ1".data]).1 .twStop).2 =
        [.oaSend .commit, .oaSend .responseCreate] ∧
      (srvStep (runFrom initState [.oaOpen, .twMessage (.start "MZ1".data)]).1
          (.twMessage .stop)).2 =
        [.oaSend .commit, .oaSend .responseCreate] := by
  exact ⟨by decide, by decide, by decide⟩

/-- Claim C5 (amended): only the timer-driven commits are guarded — a
`timerTick` emits a commit iff the timer is armed, the AI socket is open
and audio arrived since the previous commit; the final commit of the
`stop` handler is emitted unconditionally whenever the AI socket is open,
even if no audio was appended since the previous commit. -/
theorem c5_amended_commit_guard (s : PacerState) :
    (PEffect.oaSend OaOut.commit ∈ (pacerStep s .timerTick).2 ↔
        (s.commitTimer = true ∧ s.oaReady = WsSt.wsOpen ∧
          s.receivedAudioSinceLastCommit = true)) ∧
      (PEffect.oaSend OaOut.commit ∈ (pacerStep s .twStop).2 ↔
        s.oaReady = WsSt.wsOpen) := by
  obtain ⟨sid0, oa, tm, rc⟩ := s
  constructor
  · simp only [pacerStep]
    split_ifs with h
    · simp_all
    · simp_all
  · simp only [pacerStep]
    split_ifs with h <;> simp_all

/-- Claim C6: the code of `src/server.js` contradicts the claim — its
Twilio message handler calls `JSON.parse` outside any try/catch, so a
malformed inbound frame throws an uncaught exception (the call crashes and
nothing is logged), whereas the `part_002` handler logs and discards the
frame and continues, and the `part_001` handler silently discards it. -/
theorem c6_malformed_inbound_frame :
    srvStep initState (.twMessage .malformed) = ({ initState with crashed := true }, []) ∧
      dbgTwStep dbgInit .malformed = (dbgInit, [.log]) ∧
      pacerStep pacerInit .twMalformed = (pacerInit, []) :=
  ⟨rfl, rfl, rfl⟩

/-- Claim C7: for every error-free call trace, exactly one record is handed
to the persistence collaborator, at the telephony close event — and when no
marker line was captured, the hand-off is the all-blank degenerate record
whose raw field is just the marker token `LEAD:`. -/
theorem c7_persist_exactly_once (evs : List Ev)
    (he : errFree evs = true) (hn : noTwClose evs = true) :
    (persistsOf (runFrom initState (evs ++ [.twClose])).2).length = 1 ∧
      (observedMarkers evs = [] →
        persistsOf (runFrom initState (evs ++ [.twClose])).2 =
          [⟨[], [], [], [], [], [], [], "LEAD:".data⟩]) := by
  obtain ⟨hcr, hlast⟩ := runFrom_track evs initState rfl he
  rw [runFrom_append]
  constructor
  · rw [persistsOf_append, runFrom_persistsOf evs initState hn]
    simp only [runFrom, List.append_nil, List.nil_append]
    rw [srvStep_twClose_persistsOf _ hcr]
    rfl
  · intro hm
    rw [hm] at hlast
    simp only [lastOr] at hlast
    rw [persistsOf_append, runFrom_persistsOf evs initState hn]
    simp only [runFrom, List.append_nil, List.nil_append]
    rw [srvStep_twClose_persistsOf _ hcr, hlast]
    decide


/-- Claim C7 witness: a call with no events before close persists exactly
one record, the all-blank degenerate one with raw text `LEAD:`. -/
theorem c7_persist_exactly_once_witness :
    errFree ([] : List Ev) = true ∧ noTwClose ([] : List Ev) = true ∧
      (persistsOf (runFrom initState (([] : List Ev) ++ [.twClose])).2).length = 1 ∧
      persistsOf (runFrom initState (([] : List Ev) ++ [.twClose])).2 =
        [⟨[], [], [], [], [], [], [], "LEAD:".data⟩] :=
  ⟨rfl, rfl, (c7_persist_exactly_once [] rfl rfl).1,
    (c7_persist_exactly_once [] rfl rfl).2 rfl⟩

/-- The two delta fragments refuting claim C8: the marker line
`LEAD: Name=x; ...` is split between them. -/
def c8fragment1 : List Char := "LE".data

/-- Second fragment of the split marker line for claim C8. -/
def c8fragment2 : List Char := "AD: Name=x; Phone=1; YMM=2; Service=3; ZIP=4".data

/-- Claim C8 is false as stated: the concatenation of the two consecutive
deltas `LE` and `AD: ...` contains a line whose leading token is `LEAD:`,
but after the extractor processes the two deltas (each split into lines
independently, with no cross-delta buffering) no marker line is captured. -/
theorem c8_counterexample :
    (splitLines (c8fragment1 ++ c8fragment2)).any isMarker = true ∧
      (runFrom initState
          [.oaMessage (.textDelta c8fragment1),
            .oaMessage (.textDelta c8fragment2)]).1.lastLeadLine = [] := by
  exact ⟨by decide, by decide⟩

/-- Claim C8 (amended): marker detection is per-delta only — each text
delta is split into lines independently, the last marker line inside the
delta (if any) overwrites the stored line, and a line split across deltas
is never reassembled, so its pieces are not detected. -/
theorem c8_amended_per_delta_detection (s : SrvState) (t : List Char)
    (hc : s.crashed = false) :
    (srvStep s (.oaMessage (.textDelta t))).1.lastLeadLine =
      lastOr s.lastLeadLine (markersOf t) := by
  obtain ⟨sid0, lll, oa, tw, cr⟩ := s
  cases hc
  show scanLeadLines lll (splitLines t) = _
  rw [scanLeadLines_eq]
  rfl

/-- Claim C8 witness: a whole marker line inside one delta is captured. -/
theorem c8_amended_per_delta_detection_witness :
    initState.crashed = false ∧
      (srvStep initState (.oaMessage (.textDelta "LEAD: X".data))).1.lastLeadLine =
        lastOr initState.lastLeadLine (markersOf "LEAD: X".data) :=
  ⟨rfl, c8_amended_per_delta_detection initState "LEAD: X".data rfl⟩

/-- Claim C9: per call the AI socket is opened exactly once (the single
connection-accept `new WebSocket`); over any trace delivering the telephony
close event at most once, `openaiWS.close()` is called at most once (it is
guarded by the ready-state check); and the `part_002` `cleanup` is
idempotent — invoking it on an already-cleaned call is a no-op and raises
nothing. -/
theorem c9_ai_socket_once (evs : List Ev) (h : countTwClose evs ≤ 1) :
    countConnect (runCall evs).2 = 1 ∧ countClose (runCall evs).2 ≤ 1 ∧
      ∀ t : DbgState, cleanup (cleanup t).1 = ((cleanup t).1, []) := by
  refine ⟨?_, ?_, ?_⟩
  · show countConnect (Effect.oaConnect :: (runFrom initState evs).2) = 1
    have h1 := runFrom_countConnect evs initState
    have h2 : countConnect (Effect.oaConnect :: (runFrom initState evs).2) =
        1 + countConnect (runFrom initState evs).2 := by
      simp [countConnect, List.filter_cons, isConnectEff]
      omega
    rw [h2, h1]
  · show countClose (Effect.oaConnect :: (runFrom initState evs).2) ≤ 1
    have h2 : countClose (Effect.oaConnect :: (runFrom initState evs).2) =
        countClose (runFrom initState evs).2 := by
      simp [countClose, List.filter_cons, isCloseEff]
    rw [h2]
    exact le_trans (runFrom_countClose evs initState) h
  · intro t
    by_cases ht : t.closed
    · simp [cleanup, ht]
    · simp [cleanup, ht]

/-- Claim C9 witness: the one-event trace consisting of the telephony close. -/
theorem c9_ai_socket_once_witness :
    countTwClose [Ev.twClose] ≤ 1 ∧
      countConnect (runCall [Ev.twClose]).2 = 1 ∧
      countClose (runCall [Ev.twClose]).2 ≤ 1 :=
  ⟨by decide, (c9_ai_socket_once [Ev.twClose] (by decide)).1,
    (c9_ai_socket_once [Ev.twClose] (by decide)).2.1⟩

/-- Claim C10: `parseLeadLine` is total and raw-preserving — for every
input the `raw` field is the trimmed input, and whenever the outer
five-segment regex finds no match in the trimmed input, every other field
is the empty string. -/
theorem c10_parse_total_raw (line : List Char) :
    (parseLeadLine line).raw = jsTrim line ∧
      (reSearch outerToks (jsTrim line) = none →
        parseLeadLine line = ⟨[], [], [], [], [], [], [], jsTrim line⟩) := by
  constructor
  · simp only [parseLeadLine]
    split
    · split
      · rfl
      · rfl
    · rfl
  · intro h
    simp only [parseLeadLine, h]

/-- Claim C10 witness: the marker-free input `hello`. -/
theorem c10_parse_total_raw_witness :
    reSearch outerToks (jsTrim "hello".data) = none ∧
      parseLeadLine "hello".data = ⟨[], [], [], [], [], [], [], jsTrim "hello".data⟩ :=
  ⟨by decide, (c10_parse_total_raw "hello".data).2 (by decide)⟩

end Gateway
